import Mathlib

/-!
Verification development for the capture/processing/retention core of the
ComputerUseAI repository.  The Lean definitions below are shallow embeddings of
the Python source:

* `src/storage/database.py` — the SQLAlchemy models (`Capture`, `Event`,
  `Workflow`) and the column sets they declare;
* `src/storage/cleanup.py` — the three retention passes (`cleanup_old_files`,
  `cleanup_size_limit`, `physical_cleanup_deleted_records`);
* `src/processing/pipeline.py` — filename-timestamp extraction, the
  segment-processing slots (`process_audio`, `process_video`) and the
  analysis run (`run_analysis`);
* `src/capture/screen_capture.py`, `audio_capture.py`, `event_tracker.py` —
  the frame-difference heuristic and the `start()` re-entry behaviour of the
  three sensor producers;
* `src/intelligence/llm_interface.py` — `LocalLLM._safe_json` and the default
  results it produces on malformed model output.

Machine integers are modelled as `Nat`/`Int` (timestamps are UTC seconds),
datetimes as an explicit civil-time record, and fallible operations as
`Option`.  Database rows carry, in place of the boolean `deleted` attribute
that the operational code manipulates, an `Option Int` recording the instant
the flag was set (`isSome` is the code's boolean); this ghost instant is what
lets tombstone-age claims be stated, and no embedded operation reads it other
than through `isSome`.
-/

namespace CUAI

/-! ### Schema declared by `src/storage/database.py` -/

/-- Column names declared on the `captures` table by the `Capture` model
(`src/storage/database.py` lines 23-30): `id`, `timestamp`, `type`,
`file_path`, `size_bytes`, `metadata_json`.  No `deleted` column is declared. -/
def captureColumns : List String :=
  ["id", "timestamp", "type", "file_path", "size_bytes", "metadata_json"]

/-- Column names declared on the `events` table by the `Event` model
(`src/storage/database.py` lines 44-50). -/
def eventColumns : List String :=
  ["id", "timestamp", "event_type", "application", "details_json"]

/-- Attribute names referenced by the `Capture` filter of the analysis-window
query (`ProcessingPipeline.run_analysis`, `src/processing/pipeline.py` lines
251-255: `Capture.timestamp >= start_time_utc, Capture.deleted == False`). -/
def analysisCaptureFilterAttrs : List String := ["timestamp", "deleted"]

/-- Attribute names referenced by the `Event` filter of the analysis-window
query (`src/processing/pipeline.py` lines 258-262). -/
def analysisEventFilterAttrs : List String := ["timestamp", "deleted"]

/-- Attribute names referenced by the timeline query on captures
(`MainWindow.refresh_timeline`, `src/ui/main_window.py` lines 833-837:
`.filter(Capture.deleted == False)`). -/
def timelineCaptureFilterAttrs : List String := ["deleted"]

/-- Attribute names referenced by the timeline query on events
(`src/ui/main_window.py` lines 838-842). -/
def timelineEventFilterAttrs : List String := ["deleted"]

/-- Attribute names referenced by the `Capture` filter of the hard-delete
pass (`src/storage/cleanup.py` line 151:
`Capture.deleted == True, Capture.timestamp < retention_cutoff`). -/
def hardDeleteCaptureFilterAttrs : List String := ["deleted", "timestamp"]

/-- Attribute names referenced by the `Event` filter of the hard-delete pass
(`src/storage/cleanup.py` line 167). -/
def hardDeleteEventFilterAttrs : List String := ["deleted", "timestamp"]

/-- Whether the `Capture` model exposes a `deleted` attribute.  Building a
filter such as `Capture.deleted == False` succeeds exactly when this holds;
otherwise the attribute access raises `AttributeError` at query-build time. -/
def capturesHaveDeletedAttr : Bool := captureColumns.contains "deleted"

/-- Whether the `Event` model exposes a `deleted` attribute. -/
def eventsHaveDeletedAttr : Bool := eventColumns.contains "deleted"

/-! ### Row and store model -/

/-- Metadata payload of a capture row: `metadata_json` holds either
`{"transcription": text}` (audio, `pipeline.py` line 120) or
`{"ocr_data": {"items": [...]}}` (screen, `pipeline.py` line 186). -/
inductive CaptureMetadata
  | transcription (text : String)
  | ocrData (items : List String)
deriving DecidableEq, Repr

/-- A `captures` row (`src/storage/database.py` lines 23-30).  `timestamp` is
UTC seconds.  `deleted` is the ghost tombstone instant described in the file
header: the running code manipulates only the boolean `deleted.isSome`. -/
structure CaptureRow where
  id : Nat
  timestamp : Int
  type : String
  file_path : String
  size_bytes : Nat
  metadata_json : Option CaptureMetadata
  deleted : Option Int
deriving DecidableEq, Repr

/-- An `events` row (`src/storage/database.py` lines 44-50), with the same
ghost tombstone instant as `CaptureRow`. -/
structure EventRow where
  id : Nat
  timestamp : Int
  event_type : String
  application : String
  deleted : Option Int
deriving DecidableEq, Repr

/-- A file on disk under the capture directories: path (modelled as the bare
file name), size in bytes, and modification time in UTC seconds. -/
structure FileEntry where
  path : String
  size_bytes : Nat
  mtime : Int
deriving DecidableEq, Repr

/-- The persistent store plus the capture directories: the state the retention
passes and the segment processor act on. -/
structure Store where
  captures : List CaptureRow
  events : List EventRow
  files : List FileEntry
deriving DecidableEq, Repr

/-- Seconds per day: `timedelta(days=n)` is `n * 86400` seconds. -/
def secondsPerDay : Int := 86400

/-- Ascending-timestamp comparator used for `order_by(Capture.timestamp.asc())`. -/
def capLe (a b : CaptureRow) : Bool := decide (a.timestamp ≤ b.timestamp)

/-- Ascending-timestamp comparator used for `order_by(Event.timestamp.asc())`. -/
def evLe (a b : EventRow) : Bool := decide (a.timestamp ≤ b.timestamp)

/-- Insert an element after every element that compares at-or-below it. -/
def insertLe {α : Type} (le : α → α → Bool) (x : α) : List α → List α
  | [] => [x]
  | b :: bs => if le b x then b :: insertLe le x bs else x :: b :: bs

/-- Stable ascending sort realising `ORDER BY ... ASC`: elements with equal
keys keep their store order. -/
def sortBy {α : Type} (le : α → α → Bool) (l : List α) : List α :=
  l.foldl (fun acc x => insertLe le x acc) []

/-- Sum of `size_bytes` over the rows whose `deleted` flag is unset: the value
of `select(func.sum(Capture.size_bytes)).filter(Capture.deleted == False)`
(`src/storage/cleanup.py` lines 83-85). -/
def totalNonDeletedBytes (s : Store) : Nat :=
  ((s.captures.filter (fun c => c.deleted.isNone)).map (fun c => c.size_bytes)).sum

/-! ### Retention passes (`src/storage/cleanup.py`) -/

/-- Body of the database portion of `cleanup_old_files`
(`src/storage/cleanup.py` lines 24-47, the try-block): mark every `Capture`
and `Event` row with `timestamp < cutoff` and `deleted` unset as deleted, and
count the rows marked.  The ghost tombstone instant is set to `now`. -/
def cleanup_old_files_db_body (s : Store) (now max_age_days : Int) : Store × Nat :=
  let cutoff := now - max_age_days * secondsPerDay
  let capHit : CaptureRow → Bool := fun c => decide (c.timestamp < cutoff) && c.deleted.isNone
  let evHit : EventRow → Bool := fun e => decide (e.timestamp < cutoff) && e.deleted.isNone
  ({ s with
      captures := s.captures.map (fun c => if capHit c then { c with deleted := some now } else c),
      events := s.events.map (fun e => if evHit e then { e with deleted := some now } else e) },
    (s.captures.filter capHit).length + (s.events.filter evHit).length)

/-- Filesystem failsafe portion of `cleanup_old_files` (`src/storage/cleanup.py`
lines 55-66): physically delete every file whose modification time is older
than the cutoff, regardless of database status. -/
def cleanup_old_files_fs (s : Store) (now max_age_days : Int) : Store × Nat :=
  let cutoff := now - max_age_days * secondsPerDay
  let gone := s.files.filter (fun f => decide (f.mtime < cutoff))
  ({ s with files := s.files.filter (fun f => !decide (f.mtime < cutoff)) }, gone.length)

/-- `cleanup_old_files` (`src/storage/cleanup.py` lines 16-71).  The try-block
filters on `Capture.deleted` / `Event.deleted`; when the models do not declare
that attribute the filter raises `AttributeError`, the except handler (lines
49-51) rolls back and the database portion marks nothing.  The filesystem
failsafe runs either way. -/
def cleanup_old_files (s : Store) (now max_age_days : Int) : Store × Nat :=
  let dbRes :=
    if capturesHaveDeletedAttr && eventsHaveDeletedAttr then
      cleanup_old_files_db_body s now max_age_days
    else (s, 0)
  let fsRes := cleanup_old_files_fs dbRes.1 now max_age_days
  (fsRes.1, dbRes.2 + fsRes.2)

/-- Marking loop of `cleanup_size_limit` (`src/storage/cleanup.py` lines
102-109): walk the non-deleted captures in ascending timestamp order and mark
rows deleted until the running total is at or below `max_bytes`.  Returns the
rows marked, in order. -/
def sizeMarks (max_bytes : Nat) : Nat → List CaptureRow → List CaptureRow
  | _, [] => []
  | current, c :: rest =>
    if current ≤ max_bytes then []
    else c :: sizeMarks max_bytes (current - c.size_bytes) rest

/-- Body of `cleanup_size_limit` (`src/storage/cleanup.py` lines 80-133, the
try-block plus the physical deletion of the files of the rows just marked):
if the total non-deleted capture size exceeds `max_bytes`, mark the oldest
non-deleted captures deleted until the total is within budget, then delete
their files.  Returns the updated store and the number of rows marked. -/
def cleanup_size_limit_body (s : Store) (max_bytes : Nat) (now : Int) : Store × Nat :=
  let total := totalNonDeletedBytes s
  if total ≤ max_bytes then (s, 0)
  else
    let consider := sortBy capLe (s.captures.filter (fun c => c.deleted.isNone))
    let marked := sizeMarks max_bytes total consider
    let markedIds := marked.map (fun c => c.id)
    let markedPaths := marked.map (fun c => c.file_path)
    ({ s with
        captures := s.captures.map
          (fun c => if markedIds.contains c.id then { c with deleted := some now } else c),
        files := s.files.filter (fun f => !markedPaths.contains f.path) },
      marked.length)

/-- `cleanup_size_limit` (`src/storage/cleanup.py` lines 74-135).  The first
statement of the try-block filters on `Capture.deleted`; when the model does
not declare that attribute the access raises `AttributeError` and the except
handler (lines 117-120) returns 0 before any row is marked or file deleted. -/
def cleanup_size_limit (s : Store) (max_bytes : Nat) (now : Int) : Store × Nat :=
  if capturesHaveDeletedAttr then cleanup_size_limit_body s max_bytes now else (s, 0)

/-- Body of `physical_cleanup_deleted_records` (`src/storage/cleanup.py` lines
147-180, the try-block): permanently remove every `Capture` row with the
`deleted` flag set and `timestamp < now - retention_days` (together with its
file), and every `Event` row with the `deleted` flag set and
`timestamp < now - retention_days`.  The filters (lines 151 and 167) compare
the row's own `timestamp` column against the retention cutoff. -/
def physical_cleanup_body (s : Store) (now retention_days : Int) : Store × Nat :=
  let cutoff := now - retention_days * secondsPerDay
  let capGone : CaptureRow → Bool := fun c => c.deleted.isSome && decide (c.timestamp < cutoff)
  let evGone : EventRow → Bool := fun e => e.deleted.isSome && decide (e.timestamp < cutoff)
  let gonePaths := (s.captures.filter capGone).map (fun c => c.file_path)
  ({ captures := s.captures.filter (fun c => !capGone c),
     events := s.events.filter (fun e => !evGone e),
     files := s.files.filter (fun f => !gonePaths.contains f.path) },
    (s.captures.filter capGone).length + (s.events.filter evGone).length)

/-- `physical_cleanup_deleted_records` (`src/storage/cleanup.py` lines
138-186), with the same `AttributeError` guard as the other passes: when the
models do not declare the `deleted` attribute the select raises, the except
handler (lines 182-184) rolls back, and nothing is removed. -/
def physical_cleanup_deleted_records (s : Store) (now retention_days : Int) : Store × Nat :=
  if capturesHaveDeletedAttr && eventsHaveDeletedAttr then
    physical_cleanup_body s now retention_days
  else (s, 0)

/-! ### Analysis-window fetch (`src/processing/pipeline.py` lines 243-262) -/

/-- Captures returned by the analysis-window query as written
(`src/processing/pipeline.py` lines 251-255): non-deleted captures with
`timestamp >= start_time_utc`, ascending by timestamp. -/
def analysisWindowCaptures (s : Store) (startT : Int) : List CaptureRow :=
  sortBy capLe (s.captures.filter (fun c => decide (startT ≤ c.timestamp) && c.deleted.isNone))

/-- Events returned by the analysis-window query as written
(`src/processing/pipeline.py` lines 258-262). -/
def analysisWindowEvents (s : Store) (startT : Int) : List EventRow :=
  sortBy evLe (s.events.filter (fun e => decide (startT ≤ e.timestamp) && e.deleted.isNone))

/-- Data-fetch phase of `ProcessingPipeline.run_analysis`
(`src/processing/pipeline.py` lines 243-262).  Building the first query
accesses `Capture.deleted` (line 253); when the model does not declare that
attribute the access raises `AttributeError`, the surrounding except handler
(lines 328-331) logs and rolls back, and the whole run is aborted — modelled
as `none`.  Otherwise the two window queries run as written. -/
def run_analysis_fetch (s : Store) (startT : Int) :
    Option (List CaptureRow × List EventRow) :=
  if capturesHaveDeletedAttr && eventsHaveDeletedAttr then
    some (analysisWindowCaptures s startT, analysisWindowEvents s startT)
  else none

/-! ### Filename timestamp extraction (`src/processing/pipeline.py` lines 213-232) -/

/-- Civil date-time to the second, the value recovered by
`datetime.strptime(timestamp_str, "%Y%m%d%H%M%S")`. -/
structure DateTime6 where
  year : Nat
  month : Nat
  day : Nat
  hour : Nat
  minute : Nat
  second : Nat
deriving DecidableEq, Repr

/-- Gregorian leap-year test, as used by `datetime`. -/
def isLeapYear (y : Nat) : Bool := y % 4 == 0 && (y % 100 != 0 || y % 400 == 0)

/-- Days in a month of the proleptic Gregorian calendar. -/
def daysInMonth (y m : Nat) : Nat :=
  if m = 2 then (if isLeapYear y then 29 else 28)
  else if m = 4 || m = 6 || m = 9 || m = 11 then 30
  else 31

/-- Range checks performed by the `datetime` constructor on the fields that
`strptime` captured: years run over `MINYEAR..MAXYEAR` (1..9999), month, day,
hour, minute and second must form a real calendar instant, and the leap
seconds 60-61 that the `%S` regex alone would admit are rejected. -/
def validDateTime (d : DateTime6) : Bool :=
  1 ≤ d.year && d.year ≤ 9999 && 1 ≤ d.month && d.month ≤ 12 &&
  1 ≤ d.day && d.day ≤ daysInMonth d.year d.month &&
  d.hour ≤ 23 && d.minute ≤ 59 && d.second ≤ 59

/-- Numeric value of a decimal digit character. -/
def digitVal (c : Char) : Nat := c.toNat - 48

/-- Alternatives (in pattern order) of the CPython `_strptime` regex group
`(?P<Y>\d\d\d\d)`: exactly four ASCII digits.  Each entry pairs the captured
value with the unconsumed tail. -/
def candYear : List Char → List (Nat × List Char)
  | a :: b :: c :: d :: rest =>
    if a.isDigit && b.isDigit && c.isDigit && d.isDigit then
      [(digitVal a * 1000 + digitVal b * 100 + digitVal c * 10 + digitVal d, rest)]
    else []
  | _ => []

/-- Alternatives (in pattern order) of the CPython `_strptime` regex group
`(?P<m>1[0-2]|0[1-9]|[1-9])`. -/
def candMonth (l : List Char) : List (Nat × List Char) :=
  (match l with
   | a :: b :: rest =>
     (if a = '1' && b.isDigit && digitVal b ≤ 2 then [(10 + digitVal b, rest)] else []) ++
     (if a = '0' && b.isDigit && 1 ≤ digitVal b then [(digitVal b, rest)] else [])
   | _ => []) ++
  (match l with
   | a :: rest => if a.isDigit && 1 ≤ digitVal a then [(digitVal a, rest)] else []
   | _ => [])

/-- Alternatives (in pattern order) of the CPython `_strptime` regex group
`(?P<d>3[01]|[12]\d|0[1-9]|[1-9])`. -/
def candDay (l : List Char) : List (Nat × List Char) :=
  (match l with
   | a :: b :: rest =>
     (if a = '3' && b.isDigit && digitVal b ≤ 1 then [(30 + digitVal b, rest)] else []) ++
     (if (a = '1' || a = '2') && b.isDigit then [(digitVal a * 10 + digitVal b, rest)] else []) ++
     (if a = '0' && b.isDigit && 1 ≤ digitVal b then [(digitVal b, rest)] else [])
   | _ => []) ++
  (match l with
   | a :: rest => if a.isDigit && 1 ≤ digitVal a then [(digitVal a, rest)] else []
   | _ => [])

/-- Alternatives (in pattern order) of the CPython `_strptime` regex group
`(?P<H>2[0-3]|[0-1]\d|\d)`. -/
def candHour (l : List Char) : List (Nat × List Char) :=
  (match l with
   | a :: b :: rest =>
     (if a = '2' && b.isDigit && digitVal b ≤ 3 then [(20 + digitVal b, rest)] else []) ++
     (if (a = '0' || a = '1') && b.isDigit then [(digitVal a * 10 + digitVal b, rest)] else [])
   | _ => []) ++
  (match l with
   | a :: rest => if a.isDigit then [(digitVal a, rest)] else []
   | _ => [])

/-- Alternatives (in pattern order) of the CPython `_strptime` regex group
`(?P<M>[0-5]\d|\d)`. -/
def candMinute (l : List Char) : List (Nat × List Char) :=
  (match l with
   | a :: b :: rest =>
     if a.isDigit && digitVal a ≤ 5 && b.isDigit then [(digitVal a * 10 + digitVal b, rest)]
     else []
   | _ => []) ++
  (match l with
   | a :: rest => if a.isDigit then [(digitVal a, rest)] else []
   | _ => [])

/-- Alternatives (in pattern order) of the CPython `_strptime` regex group
`(?P<S>6[0-1]|[0-5]\d|\d)`. -/
def candSecond (l : List Char) : List (Nat × List Char) :=
  (match l with
   | a :: b :: rest =>
     (if a = '6' && b.isDigit && digitVal b ≤ 1 then [(60 + digitVal b, rest)] else []) ++
     (if a.isDigit && digitVal a ≤ 5 && b.isDigit then [(digitVal a * 10 + digitVal b, rest)] else [])
   | _ => []) ++
  (match l with
   | a :: rest => if a.isDigit then [(digitVal a, rest)] else []
   | _ => [])

/-- First success of a continuation over a list of alternatives: exactly the
depth-first, preference-ordered backtracking of a regex engine over a
concatenation of alternation groups. -/
def firstSome {α β : Type} : List α → (α → Option β) → Option β
  | [], _ => none
  | x :: t, f =>
    match f x with
    | some r => some r
    | none => firstSome t f

/-- The match CPython `re.match` finds for the compiled `%Y%m%d%H%M%S`
pattern (the six groups concatenated): alternatives are tried in pattern
order with backtracking on group failure, and the first complete assignment
is returned together with the unconsumed tail — the engine does not prefer
longer matches, so the tail may be nonempty even when another assignment
would consume more. -/
def matchYmdHMS (l : List Char) : Option (DateTime6 × List Char) :=
  firstSome (candYear l) fun py =>
  firstSome (candMonth py.2) fun pm =>
  firstSome (candDay pm.2) fun pd =>
  firstSome (candHour pd.2) fun ph =>
  firstSome (candMinute ph.2) fun pn =>
  firstSome (candSecond pn.2) fun ps =>
  some (⟨py.1, pm.1, pd.1, ph.1, pn.1, ps.1⟩, ps.2)

/-- `datetime.strptime(ts, "%Y%m%d%H%M%S")` on the character list `ts`
(`src/processing/pipeline.py` line 221), as `Option`: the regex must match
(else `ValueError: time data does not match format`), the match must consume
the whole string (else `ValueError: unconverted data remains`), and the
captured fields must satisfy the `datetime` constructor (else `ValueError`
again).  Every failure is `none`, the caller's fallback to "now". -/
def strptimeYmdHMS (l : List Char) : Option DateTime6 :=
  match matchYmdHMS l with
  | none => none
  | some (d, rest) => if rest.isEmpty && validDateTime d then some d else none

/-- Python `str.split(sep)` for a single-character separator: splits at every
occurrence of `c`, keeping empty components, and always returns at least one
component. -/
def splitChar (c : Char) : List Char → List (List Char)
  | [] => [[]]
  | x :: xs =>
    if x = c then [] :: splitChar c xs
    else
      match splitChar c xs with
      | h :: t => (x :: h) :: t
      | [] => [[x]]

/-- `ProcessingPipeline._extract_timestamp_from_filename`
(`src/processing/pipeline.py` lines 213-232): split the filename on `_`; with
at least three parts, parse `parts[1] + parts[2].split(".")[0]` with
`strptime "%Y%m%d%H%M%S"` (`parts[2].split(".")[0]` is the prefix of
`parts[2]` before its first dot); on fewer than three parts or a parse
failure the function falls back to the current UTC time — modelled as
`none`, meaning "now". -/
def extractTimestampFromFilename (filename : String) : Option DateTime6 :=
  match splitChar '_' filename.data with
  | _ :: p1 :: p2 :: _ => strptimeYmdHMS (p1 ++ p2.takeWhile (fun c => c ≠ '.'))
  | _ => none

/-- Number of leap years in `[1, y]`. -/
def leapCount (y : Nat) : Nat := y / 4 - y / 100 + y / 400

/-- Days of the proleptic Gregorian calendar strictly before year `y`
(counting from year 1). -/
def daysBeforeYear (y : Nat) : Nat := 365 * (y - 1) + leapCount (y - 1)

/-- Days of year `y` strictly before month `m`. -/
def daysBeforeMonth (y m : Nat) : Nat :=
  ((List.range (m - 1)).map (fun i => daysInMonth y (i + 1))).sum

/-- A civil date-time as UTC seconds (seconds since the start of year 1 of
the proleptic Gregorian calendar): the injective encoding used to store the
derived `datetime` in a row's `timestamp` column. -/
def toSecs (d : DateTime6) : Int :=
  ((((daysBeforeYear d.year + daysBeforeMonth d.year d.month + (d.day - 1)) * 24
      + d.hour) * 60 + d.minute) * 60 + d.second : Nat)

/-- Artifact-name digit formatting: `strftime` zero-pads `%Y` to four digits. -/
def pad4 (n : Nat) : List Char :=
  [Nat.digitChar (n / 1000 % 10), Nat.digitChar (n / 100 % 10),
   Nat.digitChar (n / 10 % 10), Nat.digitChar (n % 10)]

/-- Artifact-name digit formatting: `strftime` zero-pads `%m`, `%d`, `%H`,
`%M`, `%S` to two digits. -/
def pad2 (n : Nat) : List Char :=
  [Nat.digitChar (n / 10 % 10), Nat.digitChar (n % 10)]

/-- The date half of `time.strftime("%Y%m%d_%H%M%S")`, the artifact naming
used by the producers (`src/capture/screen_capture.py` lines 90-92 and 100,
`src/capture/audio_capture.py` lines 106-107). -/
def fmtDate (d : DateTime6) : String := ⟨pad4 d.year ++ pad2 d.month ++ pad2 d.day⟩

/-- The time half of `time.strftime("%Y%m%d_%H%M%S")`. -/
def fmtTime (d : DateTime6) : String := ⟨pad2 d.hour ++ pad2 d.minute ++ pad2 d.second⟩

/-! ### Frame difference (`src/capture/screen_capture.py` lines 77-81) -/

/-- A frame as numpy sees it: a shape and the flattened pixel data (uint8
values, so each entry is at most 255 — carried as a hypothesis where
needed). -/
structure Frame where
  shape : List Nat
  data : List Nat
deriving DecidableEq, Repr

/-- Absolute difference of two pixel values after the uint8 data is cast to
int16 (`np.abs(a.astype(np.int16) - b.astype(np.int16))`): for values at most
255 the int16 subtraction is exact. -/
def pixAbsDiff (a b : Nat) : Nat := max a b - min a b

/-- `ScreenCapture._frame_difference_ratio` (`src/capture/screen_capture.py`
lines 77-81): 1.0 when shapes differ, else the mean absolute pixel difference
divided by 255.  On these inputs every numpy float operation is exact, so the
rational value is the value the code computes. -/
def frame_difference_ratio (a b : Frame) : ℚ :=
  if a.shape ≠ b.shape then 1
  else ((List.zipWith (fun x y => ((pixAbsDiff x y : ℚ))) a.data b.data).sum)
        / (a.data.length * 255)

/-! ### Producer `start()` re-entry (`src/capture/`) -/

/-- State of `ScreenCapture` observable across `start()` calls: the
`_running` flag and how many times the capture loop has been entered. -/
structure ScreenCaptureState where
  running : Bool
  loopEntries : Nat
deriving DecidableEq, Repr

/-- `ScreenCapture.start` (`src/capture/screen_capture.py` lines 139-179):
sets `_running = True` and unconditionally enters the capture loop — the
method has no already-running guard. -/
def screenStart (s : ScreenCaptureState) : ScreenCaptureState :=
  { running := true, loopEntries := s.loopEntries + 1 }

/-- State of `AudioCapture` observable across `start()` calls: the `_running`
flag and how many `sd.InputStream` objects have been created. -/
structure AudioCaptureState where
  running : Bool
  streamsOpened : Nat
deriving DecidableEq, Repr

/-- `AudioCapture.start` (`src/capture/audio_capture.py` lines 52-71): sets
`_running = True` and unconditionally creates and starts a new
`sd.InputStream` (lines 58-66) before entering the accumulation loop — the
method has no already-running guard. -/
def audioStart (s : AudioCaptureState) : AudioCaptureState :=
  { running := true, streamsOpened := s.streamsOpened + 1 }

/-- State of `EventTracker` observable across `start()` calls: the `_running`
flag and how many listener pairs have been created. -/
structure EventTrackerState where
  running : Bool
  listenersCreated : Nat
deriving DecidableEq, Repr

/-- `EventTracker.start` (`src/capture/event_tracker.py` lines 78-118): when
`_running` is already set it logs a warning and returns (lines 80-82);
otherwise it sets the flag and creates the mouse/keyboard listeners. -/
def eventTrackerStart (s : EventTrackerState) : EventTrackerState :=
  if s.running then s
  else { running := true, listenersCreated := s.listenersCreated + 1 }

/-! ### Inference-result parsing (`src/intelligence/llm_interface.py`) -/

/-- The structured result `run_analysis` expects from the inference
collaborator: the four keys `LocalLLM._safe_json` guarantees. -/
structure WorkflowResult where
  workflow_summary : String
  steps : List String
  is_repetitive : Bool
  automation_potential : String
deriving DecidableEq, Repr

/-- A JSON object as `json.loads` may return it: each required key present or
absent (a non-dict value behaves as all keys absent). -/
structure ParsedJson where
  workflow_summary : Option String
  steps : Option (List String)
  is_repetitive : Option Bool
  automation_potential : Option String
deriving DecidableEq, Repr

/-- Outcome of the textual phase of `LocalLLM._safe_json` on the raw model
text: no brace-delimited region found (`text.index` raises), `json.loads`
raised `JSONDecodeError`, or a parsed object. -/
inductive LLMTextOutcome
  | noJsonObject
  | invalidJson
  | parsed (r : ParsedJson)
deriving DecidableEq, Repr

/-- `LocalLLM._safe_json` (`src/intelligence/llm_interface.py` lines 165-197)
after the textual phase: missing braces and decode errors yield the two
placeholder results with `is_repetitive = False` (lines 176-177 and 196-197);
a parsed object with all four required keys is returned as-is, and one with
missing keys is salvaged with the defaults of lines 186-192. -/
def safe_json : LLMTextOutcome → WorkflowResult
  | .noJsonObject =>
    ⟨"LLM response did not contain JSON object.", [], false, "low"⟩
  | .invalidJson =>
    ⟨"LLM response was not valid JSON.", [], false, "low"⟩
  | .parsed r =>
    if r.workflow_summary.isSome && r.steps.isSome &&
        r.is_repetitive.isSome && r.automation_potential.isSome then
      ⟨r.workflow_summary.getD "", r.steps.getD [], r.is_repetitive.getD false,
        r.automation_potential.getD ""⟩
    else
      ⟨r.workflow_summary.getD "JSON missing keys", r.steps.getD [],
        r.is_repetitive.getD false, r.automation_potential.getD "low"⟩

/-! ### Workflow upsert in `run_analysis` (`src/processing/pipeline.py` lines 287-324) -/

/-- A `workflows` row (`src/storage/database.py` lines 33-41).  `pattern_json`
stores the entire inference result; `success_rate` (a float defaulting to 0.0
that this path never touches) is omitted. -/
structure WorkflowRow where
  name : String
  description : String
  pattern_json : WorkflowResult
  created_date : Int
  last_used : Int
deriving DecidableEq, Repr

/-- Error placeholders excluded by the save guard
(`src/processing/pipeline.py` line 294). -/
def errorPlaceholders : List String :=
  ["", "LLM response was not valid JSON.", "LLM returned no content."]

/-- The save guard of `run_analysis` (`src/processing/pipeline.py` line 294):
`workflow.get("is_repetitive")` truthy and `workflow.get("workflow_summary")`
not one of the error placeholders. -/
def passesWorkflowGuard (w : WorkflowResult) : Bool :=
  w.is_repetitive && !(errorPlaceholders.contains w.workflow_summary)

/-- Update of the first row with the given name, as
`session.query(Workflow).filter_by(name=...).first()` followed by mutating
`last_used` and `pattern_json` (`src/processing/pipeline.py` lines 302-306). -/
def updateFirstWorkflow (name : String) (w : WorkflowResult) (now : Int) :
    List WorkflowRow → List WorkflowRow
  | [] => []
  | r :: rest =>
    if r.name = name then { r with last_used := now, pattern_json := w } :: rest
    else r :: updateFirstWorkflow name w now rest

/-- The workflow upsert of `run_analysis` (`src/processing/pipeline.py` lines
300-316): `workflow_name = workflow.get("workflow_summary", ...)`; if a row
with that name exists, update its `last_used` and `pattern_json`, else insert
a new row with `description` equal to the summary and `last_used = now`. -/
def upsertWorkflow (db : List WorkflowRow) (w : WorkflowResult) (now : Int) :
    List WorkflowRow :=
  let name := w.workflow_summary
  if db.any (fun r => r.name = name) then updateFirstWorkflow name w now db
  else db ++ [{ name := name, description := w.workflow_summary, pattern_json := w,
                created_date := now, last_used := now }]

/-- Detection phase of `run_analysis` given the inference result
(`src/processing/pipeline.py` lines 292-324): when the save guard passes, the
workflow is upserted and the raw result is emitted on the `workflow_detected`
signal; otherwise the store of workflows is untouched and nothing is
emitted. -/
def run_analysis_detect (db : List WorkflowRow) (w : WorkflowResult) (now : Int) :
    List WorkflowRow × Option WorkflowResult :=
  if passesWorkflowGuard w then (upsertWorkflow db w now, some w) else (db, none)

/-! ### Segment processing (`src/processing/pipeline.py` lines 97-211) -/

/-- `ProcessingPipeline.process_audio` (`src/processing/pipeline.py` lines
97-140), with the speech-to-text collaborator abstracted as
`stt : path → transcript text` and the current time `now` (UTC seconds) for
the filename-parse fallback.  When the file exists: transcribe, derive the
timestamp from the filename, persist one `Capture` row of kind `audio` whose
`size_bytes` is taken before deletion and whose metadata holds the transcript
text (persisted even when empty), then delete the file.  When the file does
not exist: log and return. -/
def process_audio (stt : String → String) (now : Int) (s : Store) (path : String) : Store :=
  match s.files.find? (fun f => f.path = path) with
  | none => s
  | some f =>
    let text := stt path
    let ts := match extractTimestampFromFilename path with
              | some d => toSecs d
              | none => now
    let newRow : CaptureRow :=
      { id := s.captures.length, timestamp := ts, type := "audio", file_path := path,
        size_bytes := f.size_bytes, metadata_json := some (.transcription text),
        deleted := none }
    { s with captures := s.captures ++ [newRow],
             files := s.files.filter (fun g => !(g.path = path : Bool)) }

/-- `ProcessingPipeline.process_video` (`src/processing/pipeline.py` lines
142-211), with the container and OCR collaborators abstracted: `openOk` is
`cv2.VideoCapture(...).isOpened()`, `frameOk` is the success flag of reading
the first frame, `ocrItems` the OCR result on that frame.  An unopenable file
is deleted with no processing attempt (lines 154-162); a failed first-frame
read persists nothing but still reaches the deletion step (lines 196-207); a
successful read persists one `Capture` row of kind `screen` and then deletes
the file. -/
def process_video (openOk frameOk : Bool) (ocrItems : List String) (now : Int)
    (s : Store) (path : String) : Store :=
  match s.files.find? (fun f => f.path = path) with
  | none => s
  | some f =>
    let without := { s with files := s.files.filter (fun g => !(g.path = path : Bool)) }
    if !openOk then without
    else if frameOk then
      let ts := match extractTimestampFromFilename path with
                | some d => toSecs d
                | none => now
      let newRow : CaptureRow :=
        { id := s.captures.length, timestamp := ts, type := "screen", file_path := path,
          size_bytes := f.size_bytes, metadata_json := some (.ocrData ocrItems),
          deleted := none }
      { without with captures := s.captures ++ [newRow] }
    else without

/-! ### Helper lemmas -/

/-- Pixel difference of a value with itself is zero. -/
theorem pixAbsDiff_self (x : Nat) : pixAbsDiff x x = 0 := by
  simp [pixAbsDiff]

/-- The summed pixel differences of a frame against itself vanish. -/
theorem zipSelf_pixAbsDiff_sum (l : List Nat) :
    (List.zipWith (fun x y => ((pixAbsDiff x y : ℚ))) l l).sum = 0 := by
  induction l with
  | nil => simp
  | cons a t ih => simp [pixAbsDiff_self, ih]

/-- Summed pixel differences of maximally different data of equal length. -/
theorem zip_pixAbsDiff_sum_max (l₁ : List Nat) : ∀ l₂ : List Nat,
    l₁.length = l₂.length → (∀ p ∈ l₁.zip l₂, pixAbsDiff p.1 p.2 = 255) →
    (List.zipWith (fun x y => ((pixAbsDiff x y : ℚ))) l₁ l₂).sum = 255 * l₁.length := by
  induction l₁ with
  | nil => intro l₂ h _; simp
  | cons a t ih =>
    intro l₂ h hmax
    cases l₂ with
    | nil => simp at h
    | cons b u =>
      have hab : pixAbsDiff a b = 255 := hmax (a, b) (by simp)
      have hrest : ∀ p ∈ t.zip u, pixAbsDiff p.1 p.2 = 255 := fun p hp => hmax p (by simp [hp])
      have hlen : t.length = u.length := by simpa using h
      simp only [List.zipWith_cons_cons, List.sum_cons, ih u hlen hrest, hab,
        List.length_cons]
      push_cast
      ring

/-- Summed pixel differences over uint8 data are nonnegative and bounded by
255 per element. -/
theorem zip_pixAbsDiff_sum_bounds (l₁ : List Nat) : ∀ l₂ : List Nat,
    (∀ x ∈ l₁, x ≤ 255) → (∀ y ∈ l₂, y ≤ 255) →
    0 ≤ (List.zipWith (fun x y => ((pixAbsDiff x y : ℚ))) l₁ l₂).sum ∧
    (List.zipWith (fun x y => ((pixAbsDiff x y : ℚ))) l₁ l₂).sum
      ≤ 255 * (List.zipWith (fun x y => ((pixAbsDiff x y : ℚ))) l₁ l₂).length := by
  induction l₁ with
  | nil => intro l₂ _ _; simp
  | cons a t ih =>
    intro l₂ h₁ h₂
    cases l₂ with
    | nil => simp
    | cons b u =>
      have ha : a ≤ 255 := h₁ a (by simp)
      have hb : b ≤ 255 := h₂ b (by simp)
      have hd : pixAbsDiff a b ≤ 255 := by
        simp only [pixAbsDiff]
        omega
      have ht : ∀ x ∈ t, x ≤ 255 := fun x hx => h₁ x (by simp [hx])
      have hu : ∀ y ∈ u, y ≤ 255 := fun y hy => h₂ y (by simp [hy])
      obtain ⟨ih0, ih1⟩ := ih u ht hu
      constructor
      · simp only [List.zipWith_cons_cons, List.sum_cons]
        positivity
      · simp only [List.zipWith_cons_cons, List.sum_cons, List.length_cons]
        push_cast
        have hdq : ((pixAbsDiff a b : ℚ)) ≤ 255 := by exact_mod_cast hd
        nlinarith [ih0, ih1, hdq]

/-- Decimal digit characters are digits and are neither `_` nor `.`. -/
theorem digitChar_props : ∀ k < 10, (Nat.digitChar k).isDigit = true ∧
    Nat.digitChar k ≠ '_' ∧ Nat.digitChar k ≠ '.' := by
  decide

/-- Reading back a decimal digit character below ten gives its value. -/
theorem digitVal_digitChar : ∀ k < 10, digitVal (Nat.digitChar k) = k := by
  decide

/-- The digit character of a value reduced mod ten is a digit. -/
theorem digitChar_mod_isDigit (k : Nat) : (Nat.digitChar (k % 10)).isDigit = true :=
  (digitChar_props _ (Nat.mod_lt _ (by norm_num))).1

/-- Characters of a four-digit pad are digits, and neither `_` nor `.`. -/
theorem pad4_chars (n : Nat) :
    ∀ c ∈ pad4 n, c.isDigit = true ∧ c ≠ '_' ∧ c ≠ '.' := by
  intro c hc
  simp only [pad4, List.mem_cons, List.not_mem_nil, or_false] at hc
  rcases hc with h | h | h | h <;> subst h <;>
    exact digitChar_props _ (Nat.mod_lt _ (by norm_num))

/-- Characters of a two-digit pad are digits, and neither `_` nor `.`. -/
theorem pad2_chars (n : Nat) :
    ∀ c ∈ pad2 n, c.isDigit = true ∧ c ≠ '_' ∧ c ≠ '.' := by
  intro c hc
  simp only [pad2, List.mem_cons, List.not_mem_nil, or_false] at hc
  rcases hc with h | h <;> subst h <;>
    exact digitChar_props _ (Nat.mod_lt _ (by norm_num))

/-- A month has at most 31 days. -/
theorem daysInMonth_le (y m : Nat) : daysInMonth y m ≤ 31 := by
  unfold daysInMonth
  split_ifs <;> norm_num

/-- `splitChar` never returns the empty list. -/
theorem splitChar_ne_nil (c : Char) : ∀ l, splitChar c l ≠ [] := by
  intro l
  induction l with
  | nil => simp [splitChar]
  | cons x xs ih =>
    simp only [splitChar]
    by_cases h : x = c
    · simp [h]
    · rw [if_neg h]
      cases hsp : splitChar c xs with
      | nil => exact absurd hsp ih
      | cons a t => simp

/-- Splitting a cons whose head is not the separator prepends the head to the
first component. -/
theorem splitChar_cons_of_ne (c x : Char) (xs : List Char) (h : x ≠ c) :
    splitChar c (x :: xs) =
      (x :: (splitChar c xs).headD []) :: (splitChar c xs).tail := by
  simp only [splitChar, if_neg h]
  cases hsp : splitChar c xs with
  | nil => exact absurd hsp (splitChar_ne_nil c xs)
  | cons a t => simp

/-- Splitting around an explicit separator occurrence, when the prefix is
free of the separator. -/
theorem splitChar_append_sep (c : Char) : ∀ (l₁ l₂ : List Char), c ∉ l₁ →
    splitChar c (l₁ ++ c :: l₂) = l₁ :: splitChar c l₂ := by
  intro l₁
  induction l₁ with
  | nil => intro l₂ _; simp [splitChar]
  | cons x xs ih =>
    intro l₂ hn
    simp only [List.mem_cons, not_or] at hn
    rw [List.cons_append, splitChar_cons_of_ne c x _ (fun hx => hn.1 hx.symm),
      ih l₂ hn.2]
    simp

/-- Splitting a separator-free list yields that single component. -/
theorem splitChar_of_not_mem (c : Char) : ∀ l, c ∉ l → splitChar c l = [l] := by
  intro l
  induction l with
  | nil => intro _; rfl
  | cons x xs ih =>
    intro hn
    simp only [List.mem_cons, not_or] at hn
    rw [splitChar_cons_of_ne c x xs (fun hx => hn.1 hx.symm), ih hn.2]
    simp

/-- The first component of a split is the take-while up to the separator. -/
theorem splitChar_eq_takeWhile_cons (c : Char) : ∀ l : List Char,
    ∃ t, splitChar c l = (l.takeWhile (fun x => !(decide (x = c)))) :: t := by
  intro l
  induction l with
  | nil => exact ⟨[], rfl⟩
  | cons x xs ih =>
    by_cases h : x = c
    · refine ⟨splitChar c xs, ?_⟩
      subst h
      simp [splitChar, List.takeWhile_cons_of_neg]
    · obtain ⟨t, ht⟩ := ih
      refine ⟨t, ?_⟩
      rw [splitChar_cons_of_ne c x xs h, ht,
        List.takeWhile_cons_of_pos (by simp [h])]
      simp

/-- Take-while keeps an all-true prefix. -/
theorem takeWhile_append_all {α : Type} (p : α → Bool) :
    ∀ (l₁ l₂ : List α), (∀ x ∈ l₁, p x = true) →
      (l₁ ++ l₂).takeWhile p = l₁ ++ l₂.takeWhile p := by
  intro l₁
  induction l₁ with
  | nil => intro l₂ _; simp
  | cons x xs ih =>
    intro l₂ h
    rw [List.cons_append, List.takeWhile_cons_of_pos (h x (by simp)),
      ih l₂ (fun y hy => h y (by simp [hy]))]
    simp

/-- Take-while over an all-true list is the identity. -/
theorem takeWhile_all {α : Type} (p : α → Bool) :
    ∀ l : List α, (∀ x ∈ l, p x = true) → l.takeWhile p = l := by
  intro l h
  have := takeWhile_append_all p l [] h
  simpa using this

/-- On a zero-padded four-digit year followed by anything, the `%Y` group has
exactly one alternative, capturing the year. -/
theorem candYear_pad4 (y : Nat) (h : y ≤ 9999) (r : List Char) :
    candYear (pad4 y ++ r) = [(y, r)] := by
  have h1 := digitVal_digitChar (y / 1000 % 10) (Nat.mod_lt _ (by norm_num))
  have h2 := digitVal_digitChar (y / 100 % 10) (Nat.mod_lt _ (by norm_num))
  have h3 := digitVal_digitChar (y / 10 % 10) (Nat.mod_lt _ (by norm_num))
  have h4 := digitVal_digitChar (y % 10) (Nat.mod_lt _ (by norm_num))
  simp only [pad4, List.cons_append, List.nil_append, candYear, digitChar_mod_isDigit,
    Bool.and_self, if_true, h1, h2, h3, h4, List.cons.injEq, Prod.mk.injEq, and_true]
  omega

/-- On a zero-padded in-range month followed by anything, the preferred
alternative of the `%m` group captures both digits. -/
theorem candMonth_pad2 (m : Nat) (h1 : 1 ≤ m) (h2 : m ≤ 12) (r : List Char) :
    ∃ t, candMonth (pad2 m ++ r) = (m, r) :: t := by
  interval_cases m <;> exact ⟨_, rfl⟩

/-- On a zero-padded in-range day followed by anything, the preferred
alternative of the `%d` group captures both digits. -/
theorem candDay_pad2 (dd : Nat) (h1 : 1 ≤ dd) (h2 : dd ≤ 31) (r : List Char) :
    ∃ t, candDay (pad2 dd ++ r) = (dd, r) :: t := by
  interval_cases dd <;> exact ⟨_, rfl⟩

/-- On a zero-padded in-range hour followed by anything, the preferred
alternative of the `%H` group captures both digits. -/
theorem candHour_pad2 (hh : Nat) (h2 : hh ≤ 23) (r : List Char) :
    ∃ t, candHour (pad2 hh ++ r) = (hh, r) :: t := by
  interval_cases hh <;> exact ⟨_, rfl⟩

/-- On a zero-padded in-range minute followed by anything, the preferred
alternative of the `%M` group captures both digits. -/
theorem candMinute_pad2 (mi : Nat) (h2 : mi ≤ 59) (r : List Char) :
    ∃ t, candMinute (pad2 mi ++ r) = (mi, r) :: t := by
  interval_cases mi <;> exact ⟨_, rfl⟩

/-- On a zero-padded in-range second followed by anything, the preferred
alternative of the `%S` group captures both digits. -/
theorem candSecond_pad2 (ss : Nat) (h2 : ss ≤ 59) (r : List Char) :
    ∃ t, candSecond (pad2 ss ++ r) = (ss, r) :: t := by
  interval_cases ss <;> exact ⟨_, rfl⟩

/-- When the continuation succeeds on the preferred alternative, the
backtracking search returns that success. -/
theorem firstSome_cons_of_some {α β : Type} (x : α) (t : List α) (f : α → Option β)
    (v : β) (h : f x = some v) : firstSome (x :: t) f = some v := by
  simp [firstSome, h]

/-- Parsing the concatenated zero-padded date and time digits of a valid
civil instant recovers the instant: each group's preferred alternative takes
its two (or four) digits and the match consumes the whole string. -/
theorem strptime_fmt (y m dd hh mi ss : Nat)
    (hv : validDateTime ⟨y, m, dd, hh, mi, ss⟩ = true) :
    strptimeYmdHMS (pad4 y ++ pad2 m ++ pad2 dd ++ pad2 hh ++ pad2 mi ++ pad2 ss)
      = some ⟨y, m, dd, hh, mi, ss⟩ := by
  have hb := hv
  simp only [validDateTime, Bool.and_eq_true, decide_eq_true_eq] at hb
  obtain ⟨⟨⟨⟨⟨⟨⟨⟨hy1, hy2⟩, hm1⟩, hm2⟩, hd1⟩, hd2⟩, hh2⟩, hmi2⟩, hss2⟩ := hb
  have hdd31 : dd ≤ 31 := le_trans hd2 (daysInMonth_le y m)
  obtain ⟨t6, e6⟩ := candSecond_pad2 ss hss2 []
  obtain ⟨t5, e5⟩ := candMinute_pad2 mi hmi2 (pad2 ss ++ [])
  obtain ⟨t4, e4⟩ := candHour_pad2 hh hh2 (pad2 mi ++ (pad2 ss ++ []))
  obtain ⟨t3, e3⟩ := candDay_pad2 dd hd1 hdd31 (pad2 hh ++ (pad2 mi ++ (pad2 ss ++ [])))
  obtain ⟨t2, e2⟩ := candMonth_pad2 m hm1 hm2
    (pad2 dd ++ (pad2 hh ++ (pad2 mi ++ (pad2 ss ++ []))))
  have hmatch : matchYmdHMS (pad4 y ++ pad2 m ++ pad2 dd ++ pad2 hh ++ pad2 mi ++ pad2 ss)
      = some (⟨y, m, dd, hh, mi, ss⟩, []) := by
    show matchYmdHMS (pad4 y ++ (pad2 m ++ (pad2 dd ++ (pad2 hh ++ (pad2 mi
      ++ (pad2 ss ++ [])))))) = some (⟨y, m, dd, hh, mi, ss⟩, [])
    unfold matchYmdHMS
    rw [candYear_pad4 y hy2]
    refine firstSome_cons_of_some _ _ _ _ ?_
    show firstSome (candMonth (pad2 m ++ (pad2 dd ++ (pad2 hh ++ (pad2 mi
      ++ (pad2 ss ++ [])))))) _ = _
    rw [e2]
    refine firstSome_cons_of_some _ _ _ _ ?_
    show firstSome (candDay (pad2 dd ++ (pad2 hh ++ (pad2 mi ++ (pad2 ss ++ []))))) _ = _
    rw [e3]
    refine firstSome_cons_of_some _ _ _ _ ?_
    show firstSome (candHour (pad2 hh ++ (pad2 mi ++ (pad2 ss ++ [])))) _ = _
    rw [e4]
    refine firstSome_cons_of_some _ _ _ _ ?_
    show firstSome (candMinute (pad2 mi ++ (pad2 ss ++ []))) _ = _
    rw [e5]
    refine firstSome_cons_of_some _ _ _ _ ?_
    show firstSome (candSecond (pad2 ss ++ [])) _ = _
    rw [e6]
    exact firstSome_cons_of_some _ _ _ _ rfl
  simp only [strptimeYmdHMS, hmatch, List.isEmpty_nil, Bool.true_and, hv, if_true]

/-- Filename extraction once the underscore split is known to have at least
three components. -/
theorem extract_eq_of_split (filename : String) (p0 p1 p2 : List Char)
    (t : List (List Char)) (h : splitChar '_' filename.data = p0 :: p1 :: p2 :: t) :
    extractTimestampFromFilename filename
      = strptimeYmdHMS (p1 ++ p2.takeWhile (fun c => c ≠ '.')) := by
  unfold extractTimestampFromFilename
  rw [h]

/-- Number of workflow rows carrying a given name. -/
def nameCount (db : List WorkflowRow) (s : String) : Nat :=
  (db.filter (fun r => decide (r.name = s))).length

/-- Exactly one row named `s`, and it records `w` and `t` as the latest
detection. -/
def oneDetected (db : List WorkflowRow) (s : String) (w : WorkflowResult) (t : Int) : Prop :=
  nameCount db s = 1 ∧ ∀ r ∈ db, r.name = s → r.last_used = t ∧ r.pattern_json = w

/-- A zero name count means no row carries the name. -/
theorem nameCount_eq_zero_iff (db : List WorkflowRow) (s : String) :
    nameCount db s = 0 ↔ ∀ r ∈ db, r.name ≠ s := by
  simp [nameCount, List.length_eq_zero, List.filter_eq_nil_iff]

/-- Updating the first matching row does not change how many rows carry the
name. -/
theorem nameCount_updateFirst (s : String) (w : WorkflowResult) (t : Int) :
    ∀ db, nameCount (updateFirstWorkflow s w t db) s = nameCount db s := by
  intro db
  induction db with
  | nil => rfl
  | cons a rest ih =>
    by_cases ha : a.name = s
    · simp [updateFirstWorkflow, ha, nameCount, List.filter_cons]
    · simp only [updateFirstWorkflow, if_neg ha]
      simp only [nameCount, List.filter_cons] at ih ⊢
      simp [ha, ih]

/-- After updating the first matching row in a table carrying the name at
most once, every row with that name records the new detection. -/
theorem updateFirst_fields (s : String) (w : WorkflowResult) (t : Int) :
    ∀ db, nameCount db s ≤ 1 →
      ∀ r ∈ updateFirstWorkflow s w t db, r.name = s →
        r.last_used = t ∧ r.pattern_json = w := by
  intro db
  induction db with
  | nil =>
    intro _ r hr
    rw [show updateFirstWorkflow s w t [] = [] from rfl] at hr
    cases hr
  | cons a rest ih =>
    intro hle r hr hrs
    by_cases ha : a.name = s
    · simp only [updateFirstWorkflow, if_pos ha] at hr
      rcases List.mem_cons.mp hr with h | h
      · subst h; exact ⟨rfl, rfl⟩
      · exfalso
        have hcnt : nameCount (a :: rest) s = nameCount rest s + 1 := by
          simp [nameCount, List.filter_cons, ha]
        have hz : nameCount rest s = 0 := by omega
        exact (nameCount_eq_zero_iff rest s).mp hz r h hrs
    · simp only [updateFirstWorkflow, if_neg ha] at hr
      rcases List.mem_cons.mp hr with h | h
      · subst h; exact absurd hrs ha
      · have hcnt : nameCount (a :: rest) s = nameCount rest s := by
          simp [nameCount, List.filter_cons, ha]
        exact ih (by omega) r h hrs

/-- Upserting a result into a table carrying its summary at most once leaves
exactly one row with that name, recording this detection. -/
theorem upsert_oneDetected (db : List WorkflowRow) (w : WorkflowResult) (t : Int)
    (h : nameCount db w.workflow_summary ≤ 1) :
    oneDetected (upsertWorkflow db w t) w.workflow_summary w t := by
  simp only [upsertWorkflow, oneDetected]
  by_cases hany : db.any (fun r => decide (r.name = w.workflow_summary)) = true
  · rw [if_pos hany]
    constructor
    · rw [nameCount_updateFirst]
      rcases List.any_eq_true.mp hany with ⟨r, hr, hrs⟩
      have hmem : r ∈ db.filter (fun r => decide (r.name = w.workflow_summary)) :=
        List.mem_filter.mpr ⟨hr, hrs⟩
      have hpos : 0 < nameCount db w.workflow_summary :=
        List.length_pos.mpr (List.ne_nil_of_mem hmem)
      omega
    · exact updateFirst_fields _ w t db h
  · rw [if_neg hany]
    have h0 : ∀ r ∈ db, r.name ≠ w.workflow_summary := by
      intro r hr hrs
      exact hany (List.any_eq_true.mpr ⟨r, hr, by simp [hrs]⟩)
    constructor
    · have hz : nameCount db w.workflow_summary = 0 := (nameCount_eq_zero_iff db _).mpr h0
      simp only [nameCount, List.filter_append] at hz ⊢
      simp [List.length_eq_zero.mp hz]
    · intro r hr hrs
      rcases List.mem_append.mp hr with hmem | hmem
      · exact absurd hrs (h0 r hmem)
      · simp only [List.mem_singleton] at hmem
        subst hmem
        exact ⟨rfl, rfl⟩

/-- A detection step on a guarded result named `s` against a table carrying
`s` at most once leaves exactly one row named `s` with the new detection. -/
theorem detect_oneDetected (db : List WorkflowRow) (w : WorkflowResult) (t : Int) (s : String)
    (hs : w.workflow_summary = s) (hg : passesWorkflowGuard w = true)
    (h : nameCount db s ≤ 1) :
    oneDetected (run_analysis_detect db w t).1 s w t := by
  subst hs
  simp only [run_analysis_detect, if_pos hg]
  exact upsert_oneDetected db w t h

/-- Folding a sequence of guarded detections that all carry summary `s`
preserves single-row state and ends recording the last detection. -/
theorem fold_oneDetected (s : String) :
    ∀ (runs : List (WorkflowResult × Int)) (db : List WorkflowRow) (w : WorkflowResult) (t : Int),
      (∀ p ∈ runs, p.1.workflow_summary = s ∧ passesWorkflowGuard p.1 = true) →
      oneDetected db s w t →
      oneDetected (runs.foldl (fun d p => (run_analysis_detect d p.1 p.2).1) db) s
        (runs.getLastD (w, t)).1 (runs.getLastD (w, t)).2 := by
  intro runs
  induction runs with
  | nil => intro db w t _ h; simpa using h
  | cons p rest ih =>
    intro db w t hruns h
    have hp := hruns p (List.mem_cons_self _ _)
    have hstep : oneDetected ((run_analysis_detect db p.1 p.2).1) s p.1 p.2 :=
      detect_oneDetected db p.1 p.2 s hp.1 hp.2 h.1.le
    have hrest : ∀ q ∈ rest, q.1.workflow_summary = s ∧ passesWorkflowGuard q.1 = true :=
      fun q hq => hruns q (List.mem_cons_of_mem _ hq)
    have hres := ih ((run_analysis_detect db p.1 p.2).1) p.1 p.2 hrest hstep
    rw [List.foldl_cons, List.getLastD_cons]
    exact hres

/-- Folding guarded detections named `s` keeps at most one row named `s`. -/
theorem fold_nameCount_le (s : String) :
    ∀ (runs : List (WorkflowResult × Int)) (db : List WorkflowRow),
      (∀ p ∈ runs, p.1.workflow_summary = s ∧ passesWorkflowGuard p.1 = true) →
      nameCount db s ≤ 1 →
      nameCount (runs.foldl (fun d p => (run_analysis_detect d p.1 p.2).1) db) s ≤ 1 := by
  intro runs
  induction runs with
  | nil => intro db _ h; simpa using h
  | cons p rest ih =>
    intro db hruns h
    have hp := hruns p (List.mem_cons_self _ _)
    have hstep := detect_oneDetected db p.1 p.2 s hp.1 hp.2 h
    exact ih _ (fun q hq => hruns q (List.mem_cons_of_mem _ hq)) hstep.1.le

/-- The last element of a nonempty cons list as `getLastD` of its tail. -/
theorem getLast_cons_eq_getLastD {α : Type} (a : α) (l : List α) (h : a :: l ≠ []) :
    (a :: l).getLast h = l.getLastD a := by
  induction l generalizing a with
  | nil => rfl
  | cons b u ih =>
    rw [List.getLast_cons (by simp : b :: u ≠ []), List.getLastD_cons]
    exact ih b (by simp)

/-! ### Concrete instances used by the claim theorems -/

/-- A live (never tombstoned) capture inside the analysis window. -/
def liveCap : CaptureRow :=
  { id := 1, timestamp := 50, type := "audio", file_path := "audio_live.wav",
    size_bytes := 10, metadata_json := some (.transcription "hello"), deleted := none }

/-- A capture whose tombstone flag was set at time 70. -/
def tombCap : CaptureRow :=
  { id := 2, timestamp := 60, type := "audio", file_path := "audio_tomb.wav",
    size_bytes := 10, metadata_json := some (.transcription "bye"), deleted := none }

/-- Store with one live and one tombstoned capture. -/
def storeC1 : Store :=
  { captures := [liveCap, { tombCap with deleted := some 70 }], events := [], files := [] }

/-- A capture created at time 0 whose tombstone flag was set at time 100: by
the time the hard-delete pass runs at 10,000,000 its tombstone has been set
for 9,999,900 seconds, far beyond a 30-day grace period, so the spec requires
its permanent removal (row and file). -/
def expiredTombstoneRow : CaptureRow :=
  { id := 1, timestamp := 0, type := "audio", file_path := "audio_expired.wav",
    size_bytes := 5, metadata_json := none, deleted := some 100 }

/-- Store holding only `expiredTombstoneRow` and its file. -/
def storeHardDelete : Store :=
  { captures := [expiredTombstoneRow], events := [],
    files := [⟨"audio_expired.wav", 5, 0⟩] }

/-- Older of two 100-byte captures. -/
def capOld : CaptureRow :=
  { id := 1, timestamp := 10, type := "screen", file_path := "video_a.mp4",
    size_bytes := 100, metadata_json := none, deleted := none }

/-- Newer of two 100-byte captures. -/
def capNew : CaptureRow :=
  { id := 2, timestamp := 20, type := "screen", file_path := "video_b.mp4",
    size_bytes := 100, metadata_json := none, deleted := none }

/-- Store holding 200 non-deleted bytes (listed newest first, so that the
pass's explicit `ORDER BY timestamp ASC` is what produces oldest-first). -/
def storeC3 : Store :=
  { captures := [capNew, capOld], events := [],
    files := [⟨"video_a.mp4", 100, 10⟩, ⟨"video_b.mp4", 100, 20⟩] }

/-! ### Claim theorems -/

/-- C1: the spec claims a record with its tombstone set is excluded from the
active queries (analysis window, timeline) while its row remains until the
hard-delete pass.  The code cannot deliver this: the `Capture` and `Event`
models declare no `deleted` column, while every active query filters on that
attribute, so building the filter raises `AttributeError`; `run_analysis`
aborts through its exception handler and returns no rows at all.  The query
bodies as written would have excluded exactly the tombstoned row
(`analysisWindowCaptures storeC1 0 = [liveCap]`). -/
theorem tombstone_exclusion_breaks_on_missing_column :
    capturesHaveDeletedAttr = false ∧
    eventsHaveDeletedAttr = false ∧
    analysisCaptureFilterAttrs.contains "deleted" = true ∧
    analysisEventFilterAttrs.contains "deleted" = true ∧
    timelineCaptureFilterAttrs.contains "deleted" = true ∧
    timelineEventFilterAttrs.contains "deleted" = true ∧
    analysisWindowCaptures storeC1 0 = [liveCap] ∧
    run_analysis_fetch storeC1 0 = none := by
  decide

/-- C2: the spec says the hard-delete pass permanently removes (row and file)
exactly the records whose tombstone has been set for longer than
`deleted_retention_days`, and never a record whose tombstone is unset.  The
pass cannot deliver this: its selects filter on the `deleted` attribute that
the models do not declare, the `AttributeError` is caught
(`src/storage/cleanup.py` lines 182-184) and the pass removes nothing — a
row whose tombstone age (9,999,900 s) far exceeds the 30-day grace period
survives together with its file.  (Even the try-block as written was
comparing the retention cutoff against the row's own `timestamp` column —
lines 151 and 167 — because the intended boolean flag carries no
tombstone-set instant.) -/
theorem hard_delete_pass_never_runs :
    capturesHaveDeletedAttr = false ∧
    eventsHaveDeletedAttr = false ∧
    hardDeleteCaptureFilterAttrs.contains "deleted" = true ∧
    hardDeleteEventFilterAttrs.contains "deleted" = true ∧
    physical_cleanup_deleted_records storeHardDelete 10000000 30
      = (storeHardDelete, 0) ∧
    expiredTombstoneRow.deleted = some 100 ∧
    (10000000 : Int) - 100 > 30 * secondsPerDay := by
  decide

/-- C3: the spec claims that after the size pass the non-deleted bytes are
within budget, marked oldest-first.  At runtime the pass marks nothing: its
first query accesses the undeclared `Capture.deleted` attribute, the
`AttributeError` is caught and 0 returned with the store untouched, so a
200-byte store stays above a 50-byte budget.  The try-block body as written
would have reached the budget, marking oldest-first (at a 100-byte budget it
marks exactly the older capture). -/
theorem size_pass_noop_on_missing_column :
    capturesHaveDeletedAttr = false ∧
    cleanup_size_limit storeC3 50 1000 = (storeC3, 0) ∧
    totalNonDeletedBytes storeC3 = 200 ∧
    ¬ (totalNonDeletedBytes (cleanup_size_limit storeC3 50 1000).1 ≤ 50) ∧
    totalNonDeletedBytes (cleanup_size_limit_body storeC3 50 1000).1 ≤ 50 ∧
    (cleanup_size_limit_body storeC3 100 1000).1.captures =
      [capNew, { capOld with deleted := some 1000 }] := by
  decide

/-- C4 (counterexample): a second `start()` while running is not a no-op for
the screen and audio producers — the screen capture loop is entered again and
a second audio input stream is opened. -/
theorem second_start_reenters_screen_and_audio :
    screenStart (screenStart ⟨false, 0⟩) ≠ screenStart ⟨false, 0⟩ ∧
    audioStart (audioStart ⟨false, 0⟩) ≠ audioStart ⟨false, 0⟩ := by
  decide

/-- C4 (amended): only the event producer's `start()` guards against a second
call while running (warning and early return); the screen and audio
producers' `start()` have no such guard and re-run their bodies. -/
theorem only_event_tracker_start_is_idempotent :
    (∀ s : EventTrackerState, eventTrackerStart (eventTrackerStart s) = eventTrackerStart s) ∧
    (∃ s : ScreenCaptureState, screenStart (screenStart s) ≠ screenStart s) ∧
    (∃ s : AudioCaptureState, audioStart (audioStart s) ≠ audioStart s) := by
  refine ⟨fun s => ?_, ⟨⟨false, 0⟩, by decide⟩, ⟨⟨false, 0⟩, by decide⟩⟩
  by_cases h : s.running <;> simp [eventTrackerStart, h]

/-- C5 (counterexample): `"video_20250101_120000abc.mp4"` matches the
claimed pattern `kind_YYYYMMDD_HHMMSS*` with kind `video` and suffix
`abc.mp4`, yet extraction falls back to "now" (`none`) instead of the
encoded instant 2025-01-01 12:00:00 — characters glued directly to the
seconds digits (anything other than end-of-name, a dot or an underscore)
spoil the parse. -/
theorem timestamp_extraction_glued_suffix_counterexample :
    extractTimestampFromFilename
        ("video" ++ "_" ++ "20250101" ++ "_" ++ "120000" ++ "abc.mp4")
      ≠ some ⟨2025, 1, 1, 12, 0, 0⟩ ∧
    extractTimestampFromFilename
        ("video" ++ "_" ++ "20250101" ++ "_" ++ "120000" ++ "abc.mp4")
      = none := by
  decide

/-- C8: an unparseable inference response (no brace-delimited region, or a
JSON decode error) is mapped by `_safe_json` to a default result with
`is_repetitive = False` and a placeholder summary, which never passes the
save guard of `run_analysis`: no workflow row is written and nothing is
emitted. -/
theorem unparseable_llm_output_detects_nothing (db : List WorkflowRow) (now : Int)
    (o : LLMTextOutcome) (h : o = .noJsonObject ∨ o = .invalidJson) :
    run_analysis_detect db (safe_json o) now = (db, none) := by
  rcases h with h | h <;> subst h <;>
    simp [run_analysis_detect, safe_json, passesWorkflowGuard]

/-- C8 (witness): the theorem applied to an empty workflow table and a JSON
decode failure. -/
theorem unparseable_llm_output_detects_nothing_witness :
    run_analysis_detect [] (safe_json .invalidJson) 0 = ([], none) :=
  unparseable_llm_output_detects_nothing [] 0 .invalidJson (Or.inr rfl)

/-- C7: processing an existing `audio_20250101_120000.wav` whose
transcription is the empty string appends exactly one capture row — kind
`audio`, timestamp the instant encoded in the name, size taken from the file
before deletion, metadata the empty transcription — and removes the source
file; empty content does not skip persistence. -/
theorem process_audio_empty_transcript_persists (stt : String → String) (s : Store)
    (now : Int) (f : FileEntry)
    (hstt : stt "audio_20250101_120000.wav" = "")
    (hfind : s.files.find? (fun g => g.path = "audio_20250101_120000.wav") = some f) :
    (process_audio stt now s "audio_20250101_120000.wav").captures =
      s.captures ++ [{ id := s.captures.length,
                       timestamp := toSecs ⟨2025, 1, 1, 12, 0, 0⟩,
                       type := "audio", file_path := "audio_20250101_120000.wav",
                       size_bytes := f.size_bytes,
                       metadata_json := some (.transcription ""),
                       deleted := none }] ∧
    ∀ g ∈ (process_audio stt now s "audio_20250101_120000.wav").files,
      g.path ≠ "audio_20250101_120000.wav" := by
  have hts : extractTimestampFromFilename "audio_20250101_120000.wav"
      = some ⟨2025, 1, 1, 12, 0, 0⟩ := by decide
  constructor
  · simp [process_audio, hfind, hts, hstt]
  · intro g hg
    simp only [process_audio, hfind, hts] at hg
    have := List.mem_filter.mp hg
    simpa using this.2

/-- C7 (witness): the theorem applied to a store holding only the audio file
and a collaborator returning the empty transcript. -/
theorem process_audio_empty_transcript_persists_witness :
    (process_audio (fun _ => "") 0
        { captures := [], events := [],
          files := [⟨"audio_20250101_120000.wav", 480044, 0⟩] }
        "audio_20250101_120000.wav").captures =
      ([] : List CaptureRow) ++ [{ id := 0,
                                   timestamp := toSecs ⟨2025, 1, 1, 12, 0, 0⟩,
                                   type := "audio",
                                   file_path := "audio_20250101_120000.wav",
                                   size_bytes := 480044,
                                   metadata_json := some (.transcription ""),
                                   deleted := none }] ∧
    ∀ g ∈ (process_audio (fun _ => "") 0
        { captures := [], events := [],
          files := [⟨"audio_20250101_120000.wav", 480044, 0⟩] }
        "audio_20250101_120000.wav").files,
      g.path ≠ "audio_20250101_120000.wav" :=
  process_audio_empty_transcript_persists (fun _ => "")
    { captures := [], events := [], files := [⟨"audio_20250101_120000.wav", 480044, 0⟩] }
    0 ⟨"audio_20250101_120000.wav", 480044, 0⟩ rfl (by decide)

/-- C10: when the container opens but the first frame read fails,
`process_video` persists no capture row and still deletes the source file,
so the artifact's size is never accounted for in the store. -/
theorem video_frame_read_failure_persists_nothing (ocrItems : List String)
    (now : Int) (s : Store) (f : FileEntry) (path : String)
    (hfind : s.files.find? (fun g => g.path = path) = some f) :
    (process_video true false ocrItems now s path).captures = s.captures ∧
    ∀ g ∈ (process_video true false ocrItems now s path).files, g.path ≠ path := by
  constructor
  · simp [process_video, hfind]
  · intro g hg
    simp only [process_video, hfind] at hg
    have := List.mem_filter.mp hg
    simpa using this.2

/-- C10 (witness): the theorem applied to a store holding only the video
file. -/
theorem video_frame_read_failure_persists_nothing_witness :
    (process_video true false [] 0
        { captures := [], events := [], files := [⟨"video_20250101_120000.mp4", 9000, 0⟩] }
        "video_20250101_120000.mp4").captures = ([] : List CaptureRow) ∧
    ∀ g ∈ (process_video true false [] 0
        { captures := [], events := [], files := [⟨"video_20250101_120000.mp4", 9000, 0⟩] }
        "video_20250101_120000.mp4").files,
      g.path ≠ "video_20250101_120000.mp4" :=
  video_frame_read_failure_persists_nothing [] 0
    { captures := [], events := [], files := [⟨"video_20250101_120000.mp4", 9000, 0⟩] }
    ⟨"video_20250101_120000.mp4", 9000, 0⟩ "video_20250101_120000.mp4" (by decide)

/-- C6: the frame difference ratio is 0 for identical frames, 1 for
same-shape frames whose per-pixel absolute difference is 255 everywhere, and
lies in `[0, 1]` for every pair of frames with uint8 data of matching
length. -/
theorem frame_difference_ratio_properties :
    (∀ a : Frame, frame_difference_ratio a a = 0) ∧
    (∀ a b : Frame, a.shape = b.shape → a.data.length = b.data.length →
      0 < a.data.length → (∀ p ∈ a.data.zip b.data, pixAbsDiff p.1 p.2 = 255) →
      frame_difference_ratio a b = 1) ∧
    (∀ a b : Frame, a.data.length = b.data.length →
      (∀ x ∈ a.data, x ≤ 255) → (∀ y ∈ b.data, y ≤ 255) →
      0 ≤ frame_difference_ratio a b ∧ frame_difference_ratio a b ≤ 1) := by
  refine ⟨fun a => ?_, fun a b hsh hlen hpos hmax => ?_, fun a b hlen h₁ h₂ => ?_⟩
  · simp only [frame_difference_ratio]
    rw [if_neg (by simp), zipSelf_pixAbsDiff_sum]
    simp
  · have hn : ((a.data.length : ℚ)) ≠ 0 := by
      exact_mod_cast Nat.pos_iff_ne_zero.mp hpos
    simp only [frame_difference_ratio, hsh, ne_eq, not_true_eq_false, if_false,
      zip_pixAbsDiff_sum_max a.data b.data hlen hmax]
    rw [div_eq_one_iff_eq (by positivity)]
    ring
  · by_cases hsh : a.shape = b.shape
    · obtain ⟨h0, h1⟩ := zip_pixAbsDiff_sum_bounds a.data b.data h₁ h₂
      have hzl : (List.zipWith (fun x y => ((pixAbsDiff x y : ℚ))) a.data b.data).length
          = a.data.length := by
        simp [List.length_zipWith, hlen]
      constructor
      · simp only [frame_difference_ratio, hsh, ne_eq, not_true_eq_false, if_false]
        positivity
      · simp only [frame_difference_ratio, hsh, ne_eq, not_true_eq_false, if_false]
        apply div_le_one_of_le₀
        · rw [hzl] at h1
          calc (List.zipWith (fun x y => ((pixAbsDiff x y : ℚ))) a.data b.data).sum
              ≤ 255 * a.data.length := h1
            _ = a.data.length * 255 := by ring
        · positivity
    · simp [frame_difference_ratio, hsh]

/-- C6 (witness): the three parts applied to concrete two-pixel frames. -/
theorem frame_difference_ratio_properties_witness :
    frame_difference_ratio ⟨[2], [0, 0]⟩ ⟨[2], [0, 0]⟩ = 0 ∧
    frame_difference_ratio ⟨[2], [0, 0]⟩ ⟨[2], [255, 255]⟩ = 1 ∧
    0 ≤ frame_difference_ratio ⟨[2], [0, 0]⟩ ⟨[2], [7, 9]⟩ ∧
    frame_difference_ratio ⟨[2], [0, 0]⟩ ⟨[2], [7, 9]⟩ ≤ 1 :=
  ⟨frame_difference_ratio_properties.1 ⟨[2], [0, 0]⟩,
   frame_difference_ratio_properties.2.1 ⟨[2], [0, 0]⟩ ⟨[2], [255, 255]⟩ rfl rfl
     (by decide) (by decide),
   (frame_difference_ratio_properties.2.2 ⟨[2], [0, 0]⟩ ⟨[2], [7, 9]⟩ rfl
     (by decide) (by decide)).1,
   (frame_difference_ratio_properties.2.2 ⟨[2], [0, 0]⟩ ⟨[2], [7, 9]⟩ rfl
     (by decide) (by decide)).2⟩

/-- C9: over any sequence of analysis detections whose inference results all
carry the same summary `s` and pass the save guard, starting from a table
with no row named `s`: exactly one row named `s` exists afterwards, that row
records the `last_used` time and pattern of the last detection, and after
every prefix of the sequence at most one row named `s` ever exists. -/
theorem repeated_summary_single_workflow_row (s : String) (db0 : List WorkflowRow)
    (runs : List (WorkflowResult × Int))
    (hruns : ∀ p ∈ runs, p.1.workflow_summary = s ∧ passesWorkflowGuard p.1 = true)
    (h0 : nameCount db0 s = 0) (hne : runs ≠ []) :
    nameCount (runs.foldl (fun d p => (run_analysis_detect d p.1 p.2).1) db0) s = 1 ∧
    (∀ r ∈ runs.foldl (fun d p => (run_analysis_detect d p.1 p.2).1) db0,
      r.name = s →
        r.last_used = (runs.getLast hne).2 ∧ r.pattern_json = (runs.getLast hne).1) ∧
    (∀ n : Nat,
      nameCount ((runs.take n).foldl (fun d p => (run_analysis_detect d p.1 p.2).1) db0) s
        ≤ 1) := by
  cases runs with
  | nil => exact absurd rfl hne
  | cons p rest =>
    have hp := hruns p (List.mem_cons_self _ _)
    have hrest : ∀ q ∈ rest, q.1.workflow_summary = s ∧ passesWorkflowGuard q.1 = true :=
      fun q hq => hruns q (List.mem_cons_of_mem _ hq)
    have hstep : oneDetected ((run_analysis_detect db0 p.1 p.2).1) s p.1 p.2 :=
      detect_oneDetected db0 p.1 p.2 s hp.1 hp.2 (by omega)
    have hfold :=
      fold_oneDetected s rest ((run_analysis_detect db0 p.1 p.2).1) p.1 p.2 hrest hstep
    have hlast : (p :: rest).getLast hne = rest.getLastD p :=
      getLast_cons_eq_getLastD p rest hne
    refine ⟨?_, ?_, ?_⟩
    · rw [List.foldl_cons]
      exact hfold.1
    · intro r hr hrs
      rw [List.foldl_cons] at hr
      rw [hlast]
      exact hfold.2 r hr hrs
    · intro n
      cases n with
      | zero => simp [h0]
      | succ m =>
        rw [List.take_succ_cons, List.foldl_cons]
        exact fold_nameCount_le s (rest.take m) _
          (fun q hq => hrest q (List.take_subset m rest hq)) hstep.1.le

/-- C9 (witness): two detections sharing the summary "Filling expense report
in Excel" against an empty workflow table leave exactly one row. -/
theorem repeated_summary_single_workflow_row_witness :
    nameCount
      ([(⟨"Filling expense report in Excel", ["open sheet"], true, "high"⟩, (10 : Int)),
        (⟨"Filling expense report in Excel", ["edit cell"], true, "medium"⟩, (20 : Int))].foldl
        (fun d p => (run_analysis_detect d p.1 p.2).1) [])
      "Filling expense report in Excel" = 1 :=
  (repeated_summary_single_workflow_row "Filling expense report in Excel" []
    [(⟨"Filling expense report in Excel", ["open sheet"], true, "high"⟩, (10 : Int)),
     (⟨"Filling expense report in Excel", ["edit cell"], true, "medium"⟩, (20 : Int))]
    (by decide) rfl (by decide)).1

/-- C5 (amended): extraction round-trips the encoded instant exactly for
every artifact name `kind_YYYYMMDD_HHMMSS⟨suffix⟩` in which the kind contains
no underscore, the date and time digits encode a valid instant, and the
suffix is empty or begins with a dot or an underscore (the shapes the
producers emit).  Outside that shape the function is total but does not
universally fall back to "now": the reassembled digit string goes through
`strptime`'s variable-width field matching, so some non-conforming names
(e.g. `x_2025_0101120000.wav`) still parse to an instant; the fallback
happens exactly when that parse fails. -/
theorem extract_timestamp_roundtrip (kind suffix : String) (d : DateTime6)
    (hkind : '_' ∉ kind.data)
    (hsuffix : suffix.data = [] ∨ (∃ r, suffix.data = '.' :: r) ∨
      (∃ r, suffix.data = '_' :: r))
    (hvalid : validDateTime d = true) :
    extractTimestampFromFilename (kind ++ "_" ++ fmtDate d ++ "_" ++ fmtTime d ++ suffix)
      = some d := by
  obtain ⟨y, m, dd, hh, mi, ss⟩ := d
  have hfd : ∀ c ∈ (fmtDate ⟨y, m, dd, hh, mi, ss⟩).data, c ≠ '_' ∧ c ≠ '.' := by
    intro c hc
    have hc' : c ∈ pad4 y ++ pad2 m ++ pad2 dd := hc
    simp only [List.mem_append] at hc'
    rcases hc' with (h | h) | h
    · exact ⟨(pad4_chars y c h).2.1, (pad4_chars y c h).2.2⟩
    · exact ⟨(pad2_chars m c h).2.1, (pad2_chars m c h).2.2⟩
    · exact ⟨(pad2_chars dd c h).2.1, (pad2_chars dd c h).2.2⟩
  have hft : ∀ c ∈ (fmtTime ⟨y, m, dd, hh, mi, ss⟩).data, c ≠ '_' ∧ c ≠ '.' := by
    intro c hc
    have hc' : c ∈ pad2 hh ++ pad2 mi ++ pad2 ss := hc
    simp only [List.mem_append] at hc'
    rcases hc' with (h | h) | h
    · exact ⟨(pad2_chars hh c h).2.1, (pad2_chars hh c h).2.2⟩
    · exact ⟨(pad2_chars mi c h).2.1, (pad2_chars mi c h).2.2⟩
    · exact ⟨(pad2_chars ss c h).2.1, (pad2_chars ss c h).2.2⟩
  have hfd_ne : '_' ∉ (fmtDate ⟨y, m, dd, hh, mi, ss⟩).data := fun h => (hfd '_' h).1 rfl
  have hft_u : ∀ c ∈ (fmtTime ⟨y, m, dd, hh, mi, ss⟩).data,
      (!(decide (c = '_'))) = true := by
    intro c hc
    simpa using (hft c hc).1
  have hft_d : ∀ c ∈ (fmtTime ⟨y, m, dd, hh, mi, ss⟩).data,
      (decide (c ≠ '.')) = true := by
    intro c hc
    simpa using (hft c hc).2
  have hdata : (kind ++ "_" ++ fmtDate ⟨y, m, dd, hh, mi, ss⟩ ++ "_"
        ++ fmtTime ⟨y, m, dd, hh, mi, ss⟩ ++ suffix).data
      = kind.data ++ '_' :: ((fmtDate ⟨y, m, dd, hh, mi, ss⟩).data
        ++ '_' :: ((fmtTime ⟨y, m, dd, hh, mi, ss⟩).data ++ suffix.data)) := by
    simp [String.data_append, show ("_" : String).data = ['_'] from rfl,
      List.append_assoc]
  obtain ⟨t, ht⟩ := splitChar_eq_takeWhile_cons '_'
    ((fmtTime ⟨y, m, dd, hh, mi, ss⟩).data ++ suffix.data)
  have hsplit : splitChar '_' (kind ++ "_" ++ fmtDate ⟨y, m, dd, hh, mi, ss⟩ ++ "_"
        ++ fmtTime ⟨y, m, dd, hh, mi, ss⟩ ++ suffix).data
      = kind.data :: (fmtDate ⟨y, m, dd, hh, mi, ss⟩).data
        :: (((fmtTime ⟨y, m, dd, hh, mi, ss⟩).data ++ suffix.data).takeWhile
              (fun x => !(decide (x = '_')))) :: t := by
    rw [hdata, splitChar_append_sep _ _ _ hkind, splitChar_append_sep _ _ _ hfd_ne, ht]
  rw [extract_eq_of_split _ _ _ _ _ hsplit]
  rcases hsuffix with hs | ⟨r, hs⟩ | ⟨r, hs⟩
  · rw [hs, List.append_nil, takeWhile_all _ _ hft_u, takeWhile_all _ _ hft_d]
    exact strptime_fmt y m dd hh mi ss hvalid
  · rw [hs, takeWhile_append_all _ _ _ hft_u,
      List.takeWhile_cons_of_pos (p := fun x => !(decide (x = '_'))) (by decide),
      takeWhile_append_all _ _ _ hft_d,
      List.takeWhile_cons_of_neg (p := fun c => decide (c ≠ '.')) (by decide),
      List.append_nil]
    exact strptime_fmt y m dd hh mi ss hvalid
  · rw [hs, takeWhile_append_all _ _ _ hft_u,
      List.takeWhile_cons_of_neg (p := fun x => !(decide (x = '_'))) (by decide),
      List.append_nil, takeWhile_all _ _ hft_d]
    exact strptime_fmt y m dd hh mi ss hvalid

/-- C5 (witness): the amended round-trip applied to
`audio_20250101_120000.wav`. -/
theorem extract_timestamp_roundtrip_witness :
    extractTimestampFromFilename
        ("audio" ++ "_" ++ fmtDate ⟨2025, 1, 1, 12, 0, 0⟩ ++ "_"
          ++ fmtTime ⟨2025, 1, 1, 12, 0, 0⟩ ++ ".wav")
      = some ⟨2025, 1, 1, 12, 0, 0⟩ :=
  extract_timestamp_roundtrip "audio" ".wav" ⟨2025, 1, 1, 12, 0, 0⟩ (by decide)
    (Or.inr (Or.inl ⟨['w', 'a', 'v'], by decide⟩)) (by decide)

end CUAI
